import Mathlib

/-!
Verification of the AirCoach car-traffic pipeline core
(`scan_traffic.py`, `visualize_dense_traffic.py`, `visualize_time_machine.py`).

The pipeline is embedded shallowly over ℚ: grid generation, per-point flow
sampling with retry, inverse-distance-weighted interpolation of the sparse
congestion field onto target midpoints, temporal synthesis of 24 hourly
fields, and the congestion-to-color gradient.  External collaborators
(the HTTP flow lookup and the scipy cKDTree neighbor query) are modelled by
their documented contracts: the flow lookup as an explicit outcome value per
request, the neighbor query as lists of distances and indices constrained by
the predicate `CKDQueryOK` (sorted nearest neighbors; when the tree holds
fewer than `k` points, the missing entries carry an infinite distance and the
out-of-range index `n`, exactly as scipy documents).
-/

namespace AirCoach

/-! ## scan_traffic.py -/

/-- Bounding box as in the `BBOX` configuration dict of `scan_traffic.py`. -/
structure BBox where
  lat_min : ℚ
  lat_max : ℚ
  lon_min : ℚ
  lon_max : ℚ
deriving DecidableEq

/-- The Bucharest bounding box from `scan_traffic.py`. -/
def BUCHAREST_BBOX : BBox := ⟨4433/100, 4456/100, 2596/100, 2623/100⟩

/-- The grid spacing constant from `scan_traffic.py` (0.005 degrees). -/
def GRID_SPACING : ℚ := 5/1000

/-- Embedding of `numpy.arange(start, stop, step)` over ℚ.  The element count
is `max 0 ⌈(stop - start)/step⌉`; a zero step raises in numpy
(`none` here); a step pointing away from `stop` yields the empty array. -/
def np_arange (start stop step : ℚ) : Option (List ℚ) :=
  if step = 0 then none
  else
    some (if (0:ℤ) < ⌈(stop - start) / step⌉ then
      (List.range (⌈(stop - start) / step⌉).toNat).map (fun i => start + i * step)
    else [])

/-- `generate_grid` from `scan_traffic.py`: the row-major Cartesian product of
the latitude and longitude `np.arange` sequences.  `none` models the numpy
exception raised for a zero spacing. -/
def generate_grid (bbox : BBox) (spacing : ℚ) : Option (List (ℚ × ℚ)) :=
  match np_arange bbox.lat_min bbox.lat_max spacing,
        np_arange bbox.lon_min bbox.lon_max spacing with
  | some lats, some lons => some (lats.flatMap (fun la => lons.map (fun lo => (la, lo))))
  | _, _ => none

/-- Outcome of one HTTP request to the TomTom flow endpoint: either the
request itself raises `requests.RequestException`, or a response arrives with
a status code and the optional `currentSpeed` / `freeFlowSpeed` fields
extracted from its JSON body. -/
inductive FetchOutcome where
  | netError
  | response (status : ℕ) (current_speed : Option ℚ) (free_flow_speed : Option ℚ)
deriving DecidableEq

/-- One record produced by `fetch_congestion`.  The invalid record of the
Python code is a dict holding only `lat`, `lon` and `congestion_factor: None`;
it is modelled with all three optional fields absent. -/
structure FlowSample where
  lat : ℚ
  lon : ℚ
  current_speed : Option ℚ
  free_flow_speed : Option ℚ
  congestion_factor : Option ℚ
deriving DecidableEq

/-- The invalid record `{"lat": lat, "lon": lon, "congestion_factor": None}`. -/
def invalidSample (lat lon : ℚ) : FlowSample := ⟨lat, lon, none, none, none⟩

/-- The response `fetch_congestion` ends up processing: on a 429 first
response the code sleeps and retries the same coordinate once, so the second
outcome replaces the first; a network error on the first request propagates
directly to the `except` clause. -/
def effectiveResponse (first retry : FetchOutcome) : FetchOutcome :=
  match first with
  | FetchOutcome.netError => FetchOutcome.netError
  | FetchOutcome.response s cs ffs =>
      if s = 429 then retry else FetchOutcome.response s cs ffs

/-- The success path of `fetch_congestion`: `raise_for_status` raises (caught
as an invalid sample) for status codes in [400, 600); otherwise the two
speeds are extracted from the body and kept only when both are present with a
positive free-flow speed. -/
def fetch_result (first retry : FetchOutcome) : Option (ℚ × ℚ) :=
  match effectiveResponse first retry with
  | FetchOutcome.netError => none
  | FetchOutcome.response s cs ffs =>
      if 400 ≤ s ∧ s < 600 then none
      else
        match cs, ffs with
        | some c, some f => if 0 < f then some (c, f) else none
        | _, _ => none

/-- `fetch_congestion` from `scan_traffic.py`, as a function of the one or two
request outcomes: on the success path the congestion factor
`1 - current/free_flow` is clamped to [0, 1]; every failure produces the
invalid record. -/
def fetch_congestion (lat lon : ℚ) (first retry : FetchOutcome) : FlowSample :=
  match fetch_result first retry with
  | none => invalidSample lat lon
  | some (c, f) => ⟨lat, lon, some c, some f, some (max 0 (min 1 (1 - c / f)))⟩

/-- `scan_traffic_grid` from `scan_traffic.py`: one `fetch_congestion` call
per grid coordinate, in grid order, with the per-point request outcomes given
by `behavior` (first and retry outcome for the point at each index). -/
def scan_traffic_grid (grid : List (ℚ × ℚ))
    (behavior : ℕ → FetchOutcome × FetchOutcome) : List FlowSample :=
  (List.range grid.length).map (fun i =>
    fetch_congestion (grid.getD i (0, 0)).1 (grid.getD i (0, 0)).2
      (behavior i).1 (behavior i).2)

/-- A request pair whose effective response is a network error or an HTTP
error status (the cases where `fetch_congestion` takes its failure path). -/
def RequestFailed (first retry : FetchOutcome) : Prop :=
  match effectiveResponse first retry with
  | FetchOutcome.netError => True
  | FetchOutcome.response s _ _ => 400 ≤ s ∧ s < 600

/-- Default used only to state `getD` equations about scan results. -/
def DEFAULT_SAMPLE : FlowSample := ⟨0, 0, none, none, none⟩

instance instDecRequestFailed (first retry : FetchOutcome) :
    Decidable (RequestFailed first retry) := by
  unfold RequestFailed
  cases effectiveResponse first retry with
  | netError => exact isTrue trivial
  | response s cs ffs => exact inferInstance

/-! ## visualize_dense_traffic.py -/

/-- One row of the traffic CSV consumed by `interpolate_traffic_idw`:
a sampled coordinate and its optional congestion factor (`NaN` = `none`). -/
structure TrafficSample where
  lat : ℚ
  lon : ℚ
  congestion_factor : Option ℚ
deriving DecidableEq

/-- `traffic_df[traffic_df['congestion_factor'].notna()]`. -/
def validSamples (traffic : List TrafficSample) : List TrafficSample :=
  traffic.filter (fun s => s.congestion_factor.isSome)

/-- `traffic_valid[['lat', 'lon']].values`: the coordinates the KD-tree is
built from. -/
def validCoords (traffic : List TrafficSample) : List (ℚ × ℚ) :=
  (validSamples traffic).map (fun s => (s.lat, s.lon))

/-- `traffic_valid['congestion_factor'].values`. -/
def validCongestion (traffic : List TrafficSample) : List ℚ :=
  (validSamples traffic).filterMap (fun s => s.congestion_factor)

/-- Squared planar distance on the (lat, lon) plane. -/
def sqdist (p q : ℚ × ℚ) : ℚ := (p.1 - q.1) ^ 2 + (p.2 - q.2) ^ 2

/-- The `1e-10` minimum-distance clamp of `interpolate_traffic_idw`. -/
def EPS : ℚ := 1 / 10 ^ 10

/-- `1.0 / np.maximum(d, 1e-10)` for one neighbor distance; `none` models the
infinite distance scipy reports for a missing neighbor (`max(inf, eps) = inf`
and `1/inf = 0`). -/
def clampedInv (od : Option ℚ) : ℚ :=
  match od with
  | none => 0
  | some d => 1 / max d EPS

/-- The normalized IDW weights `weights / weights.sum()` for one target. -/
def idw_weights (dists : List (Option ℚ)) : List ℚ :=
  (dists.map clampedInv).map (fun w => w / (dists.map clampedInv).sum)

/-- Elementwise product then sum, `np.sum(values * weights)`. -/
def dotSum : List ℚ → List ℚ → ℚ
  | x :: xs, y :: ys => x * y + dotSum xs ys
  | _, _ => 0

/-- `traffic_congestion[indices[i]]`: numpy fancy indexing, which raises
`IndexError` (here `none`) as soon as any index is out of range. -/
def lookupAll (vals : List ℚ) : List ℕ → Option (List ℚ)
  | [] => some []
  | i :: rest =>
      match vals.get? i, lookupAll vals rest with
      | some v, some l => some (v :: l)
      | _, _ => none

/-- The per-target body of the IDW loop in `interpolate_traffic_idw`
(lines 113-127): look up the neighbor congestion values by index, clamp the
distances, take inverse-distance weights, normalize, and output the weighted
sum.  `none` models the `IndexError` raised by the lookup. -/
def idw_combine (congestion : List ℚ) (dists : List (Option ℚ))
    (idxs : List ℕ) : Option ℚ :=
  match lookupAll congestion idxs with
  | none => none
  | some vals => some (dotSum vals (idw_weights dists))

/-- `interpolate_traffic_idw`: the valid-sample filtering composed with the
per-target IDW loop, one query result (distances and indices, as returned by
`tree.query`) per target.  A raised `IndexError` aborts the whole call. -/
def interpolate_traffic_idw (traffic : List TrafficSample) :
    List (List (Option ℚ) × List ℕ) → Option (List ℚ)
  | [] => some []
  | q :: rest =>
      match idw_combine (validCongestion traffic) q.1 q.2,
            interpolate_traffic_idw traffic rest with
      | some v, some l => some (v :: l)
      | _, _ => none

/-- Distance value at position `j` of a query result (0 when absent; only
read under an `isSome` guard). -/
def dAt (dists : List (Option ℚ)) (j : ℕ) : ℚ := (dists.getD j none).getD 0

/-- Contract of `scipy.spatial.cKDTree.query(target, k)` over the points
`pts` (n = `pts.length`): `k` (distance, index) pairs; the first `min k n`
entries are distinct nearest points in nondecreasing distance order with the
distance squaring to the planar squared distance; when `n < k`, positions
`n, …, k-1` carry an infinite distance (`none`) and the index `n`. -/
def CKDQueryOK (pts : List (ℚ × ℚ)) (target : ℚ × ℚ) (k : ℕ)
    (dists : List (Option ℚ)) (idxs : List ℕ) : Prop :=
  dists.length = k ∧ idxs.length = k ∧
  (∀ j, j < k → j < pts.length →
      idxs.getD j 0 < pts.length ∧ (dists.getD j none).isSome = true ∧
      0 ≤ dAt dists j ∧
      dAt dists j ^ 2 = sqdist (pts.getD (idxs.getD j 0) (0, 0)) target) ∧
  (∀ j, j < k → pts.length ≤ j →
      idxs.getD j 0 = pts.length ∧ dists.getD j none = none) ∧
  (∀ j, j < k → ∀ i, i < j → dAt dists i ≤ dAt dists j ∨ pts.length ≤ j) ∧
  (∀ j, j < k → ∀ i, i < k → j < pts.length → i < pts.length → i ≠ j →
      idxs.getD i 0 ≠ idxs.getD j 0) ∧
  (∀ m, m < pts.length → (∀ j, j < k → idxs.getD j 0 ≠ m) →
      ∀ j, j < k → j < pts.length →
      dAt dists j ^ 2 ≤ sqdist (pts.getD m (0, 0)) target)

/-! ## visualize_time_machine.py -/

/-- `get_time_multiplier` from `visualize_time_machine.py`: the if/elif chain
over the hour of day.  Note hour 6 matches no band and falls through to the
final `else`. -/
def get_time_multiplier (hour : ℕ) : ℚ :=
  if 3 ≤ hour ∧ hour < 6 then 3/10
  else if 7 ≤ hour ∧ hour < 9 then 2
  else if 9 ≤ hour ∧ hour < 10 then 3/2
  else if 10 ≤ hour ∧ hour < 16 then 1
  else if 16 ≤ hour ∧ hour < 17 then 3/2
  else if 17 ≤ hour ∧ hour < 20 then 5/2
  else if 20 ≤ hour ∧ hour < 23 then 6/5
  else if 23 ≤ hour ∨ hour < 3 then 1/2
  else 1

/-- One lowercase hexadecimal digit. -/
def hexDigit (n : ℕ) : Char :=
  if n < 10 then Char.ofNat (48 + n) else Char.ofNat (87 + n)

/-- Two lowercase hex digits, Python `f'{n:02x}'` for 0 ≤ n ≤ 255. -/
def hex2 (n : ℤ) : String :=
  String.mk [hexDigit (n.toNat / 16 % 16), hexDigit (n.toNat % 16)]

/-- `rgb_to_hex` from `visualize_time_machine.py`. -/
def rgb_to_hex (r g b : ℤ) : String :=
  "#" ++ hex2 r ++ hex2 g ++ hex2 b

/-- Default `max_congestion` of `get_smooth_gradient_color`. -/
def MAX_CONGESTION : ℚ := 3/5

/-- `get_smooth_gradient_color` from `visualize_time_machine.py`: `none`
models a NaN input (the `pd.isna` branch); the three gradient branches split
at normalized 0.33 and 0.66, and Python `int()` on the nonnegative channel
products is the floor. -/
def get_smooth_gradient_color (congestion : Option ℚ) (max_congestion : ℚ) :
    String :=
  match congestion with
  | none => "#666666"
  | some c =>
      let normalized := min (c / max_congestion) 1
      if normalized < 33/100 then
        rgb_to_hex 0 (Int.floor (255 * (normalized / (33/100)))) 255
      else if normalized < 66/100 then
        rgb_to_hex (Int.floor (255 * ((normalized - 33/100) / (33/100)))) 255
          (Int.floor (255 * (1 - (normalized - 33/100) / (33/100))))
      else
        rgb_to_hex 255 (Int.floor (255 * (1 - (normalized - 66/100) / (34/100)))) 0

/-- The hourly congestion series of `generate_hourly_snapshots`:
`base_congestion * multiplier`, elementwise, with no clamping. -/
def hourly_field (base : List ℚ) (hour : ℕ) : List ℚ :=
  base.map (fun c => c * get_time_multiplier hour)

/-- `generate_hourly_snapshots` congestion values: one field per hour 0-23. -/
def generate_hourly_snapshots (base : List ℚ) : List (List ℚ) :=
  (List.range 24).map (hourly_field base)

/-- Modelled from the spec: the `clamp(x, lo, hi)` operation named by the
temporal-synthesis contract `field[hour][target] =
clamp(base[target] * curve[hour], 0, upper_bound)`.  The code of
`generate_hourly_snapshots` contains no such clamp; this definition exists
only to compare the spec's formula with the code's output. -/
def spec_clamp (x lo hi : ℚ) : ℚ := max lo (min x hi)

/-! ## Helper lemmas -/

theorem getD_eq_get {α : Type} (l : List α) (i : ℕ) (d : α) (h : i < l.length) :
    l.getD i d = l.get ⟨i, h⟩ := by
  induction l generalizing i with
  | nil => simp at h
  | cons a t ih =>
      cases i with
      | zero => rfl
      | succ n => exact ih n (Nat.lt_of_succ_lt_succ h)

theorem getD_map_range {α : Type} (n i : ℕ) (f : ℕ → α) (d : α) (h : i < n) :
    ((List.range n).map f).getD i d = f i := by
  have hlen : i < ((List.range n).map f).length := by simpa using h
  rw [getD_eq_get _ _ _ hlen, List.get_map, List.get_range]

theorem getD_map_of_lt {α β : Type} (l : List α) (g : α → β) (i : ℕ) (d : α)
    (d2 : β) (h : i < l.length) : (l.map g).getD i d2 = g (l.getD i d) := by
  have hlen : i < (l.map g).length := by simpa using h
  rw [getD_eq_get _ _ _ hlen, getD_eq_get _ _ _ h, List.get_map]

/-! ## C1: temporal synthesis -/

/-- C1 counterexample: the claim says the hour-17 field at a base value of
0.5 is `clamp(0.5 * 2.5, 0, 1) = 1`, but `generate_hourly_snapshots` applies
no clamp and produces 1.25, which exceeds the claimed ceiling of 1. -/
theorem C1_cex :
    ((generate_hourly_snapshots [1/2]).getD 17 []).getD 0 0 = 5/4 ∧
    spec_clamp ((1/2) * get_time_multiplier 17) 0 1 = 1 ∧
    ((5 : ℚ)/4) ≠ 1 := by
  refine ⟨?_, ?_, by norm_num⟩
  · have h : (generate_hourly_snapshots [1/2]).getD 17 [] = hourly_field [1/2] 17 :=
      getD_map_range 24 17 (hourly_field [1/2]) [] (by norm_num)
    rw [h]
    norm_num [hourly_field, get_time_multiplier]
  · norm_num [spec_clamp, get_time_multiplier, min_def, max_def]

/-- C1 (amended): for every base field, hour in 0..23 and in-range target,
the hourly field produced by `generate_hourly_snapshots` is
`base[t] * curve[hour]` with no clamping, so values above 1 are produced
whenever the product exceeds 1. -/
theorem C1_unclamped (base : List ℚ) (hour t : ℕ) (hh : hour < 24)
    (ht : t < base.length) :
    ((generate_hourly_snapshots base).getD hour []).getD t 0 =
      base.getD t 0 * get_time_multiplier hour := by
  unfold generate_hourly_snapshots
  rw [getD_map_range 24 hour (hourly_field base) [] hh]
  unfold hourly_field
  rw [getD_map_of_lt base _ t 0 0 ht]

/-- C1 witness: the amended statement evaluated at base `[1/2]`, hour 17,
target 0. -/
theorem C1_witness :
    ((generate_hourly_snapshots [1/2]).getD 17 []).getD 0 0 =
      ([1/2] : List ℚ).getD 0 0 * get_time_multiplier 17 :=
  C1_unclamped [1/2] 17 0 (by decide) (by decide)

/-! ## C2: hourly multiplier curve -/

/-- C2 counterexample: the claim says hours in [6,9) map to 2.0, in
particular `get_time_multiplier 6 = 2.0`; the code's morning-rush band is
`7 <= hour < 9`, so hour 6 matches no band and falls through to the final
`else`, returning 1.0. -/
theorem C2_cex : get_time_multiplier 6 = 1 ∧ (1 : ℚ) ≠ 2 := by
  norm_num [get_time_multiplier]

/-- C2 (amended): the full hour-by-hour table of `get_time_multiplier`:
[3,6)=0.3, [6,7)=1.0 (the else fallthrough), [7,9)=2.0, [9,10)=1.5,
[10,16)=1.0, [16,17)=1.5, [17,20)=2.5, [20,23)=1.2, [23,24) and [0,3)=0.5. -/
theorem C2_table :
    get_time_multiplier 0 = 1/2 ∧ get_time_multiplier 1 = 1/2 ∧
    get_time_multiplier 2 = 1/2 ∧ get_time_multiplier 3 = 3/10 ∧
    get_time_multiplier 4 = 3/10 ∧ get_time_multiplier 5 = 3/10 ∧
    get_time_multiplier 6 = 1 ∧ get_time_multiplier 7 = 2 ∧
    get_time_multiplier 8 = 2 ∧ get_time_multiplier 9 = 3/2 ∧
    get_time_multiplier 10 = 1 ∧ get_time_multiplier 11 = 1 ∧
    get_time_multiplier 12 = 1 ∧ get_time_multiplier 13 = 1 ∧
    get_time_multiplier 14 = 1 ∧ get_time_multiplier 15 = 1 ∧
    get_time_multiplier 16 = 3/2 ∧ get_time_multiplier 17 = 5/2 ∧
    get_time_multiplier 18 = 5/2 ∧ get_time_multiplier 19 = 5/2 ∧
    get_time_multiplier 20 = 6/5 ∧ get_time_multiplier 21 = 6/5 ∧
    get_time_multiplier 22 = 6/5 ∧ get_time_multiplier 23 = 1/2 := by
  norm_num [get_time_multiplier]

/-! ## C3: color mapper -/

/-- C3 counterexample: a congestion value whose normalized value equals
exactly 1/3 (0.2 against the default ceiling 0.6) does not fall in the first
branch (1/3 > 0.33), and the second branch yields `#02fffc`, not the pure
cyan `#00ffff` the claim requires at 1/3. -/
theorem C3_cex :
    ((1 : ℚ)/5) / MAX_CONGESTION = 1/3 ∧
    get_smooth_gradient_color (some (1/5)) MAX_CONGESTION = "#02fffc" ∧
    "#02fffc" ≠ "#00ffff" := by
  refine ⟨by norm_num [MAX_CONGESTION], ?_, by decide⟩
  unfold get_smooth_gradient_color MAX_CONGESTION
  norm_num [min_def]
  decide

/-- C3 (amended): the gradient's exact breakpoints sit at normalized 0,
0.33, 0.66 and 1 (not at the thirds): pure blue at 0, pure cyan at 0.33,
pure yellow at 0.66, pure red at 1, and the fixed neutral `#666666` for an
unknown (NaN) input; the three segments have widths 0.33, 0.33 and 0.34. -/
theorem C3_boundaries :
    get_smooth_gradient_color (some 0) MAX_CONGESTION = "#0000ff" ∧
    get_smooth_gradient_color (some (33/100 * MAX_CONGESTION)) MAX_CONGESTION = "#00ffff" ∧
    get_smooth_gradient_color (some (66/100 * MAX_CONGESTION)) MAX_CONGESTION = "#ffff00" ∧
    get_smooth_gradient_color (some MAX_CONGESTION) MAX_CONGESTION = "#ff0000" ∧
    get_smooth_gradient_color none MAX_CONGESTION = "#666666" := by
  unfold get_smooth_gradient_color MAX_CONGESTION
  norm_num [min_def]
  decide

/-! ## C6: grid generation and configuration validation -/

/-- C6 counterexample: for the configured Bucharest box and a negative
spacing, `generate_grid` raises nothing and silently returns the empty grid,
so the pipeline does not reject non-positive spacing before issuing network
requests. -/
theorem C6_cex : generate_grid BUCHAREST_BBOX (-(5/1000)) = some [] := by
  unfold generate_grid np_arange BUCHAREST_BBOX
  norm_num

/-- C6 (amended): `generate_grid` performs no input validation: a zero
spacing aborts with an uncaught numpy error, while a negative spacing over a
non-empty (or point) box silently yields the empty grid, with which the scan
then proceeds. -/
theorem C6_no_validation (bbox : BBox) (spacing : ℚ) :
    generate_grid bbox 0 = none ∧
    (spacing < 0 → bbox.lat_min ≤ bbox.lat_max →
      generate_grid bbox spacing = some []) := by
  constructor
  · unfold generate_grid np_arange
    simp
  · intro hs hb
    have hs0 : spacing ≠ 0 := ne_of_lt hs
    have hq : (bbox.lat_max - bbox.lat_min) / spacing ≤ 0 :=
      div_nonpos_of_nonneg_of_nonpos (by linarith) (le_of_lt hs)
    have hceil : ¬ (0:ℤ) < ⌈(bbox.lat_max - bbox.lat_min) / spacing⌉ := by
      have h2 : ⌈(bbox.lat_max - bbox.lat_min) / spacing⌉ ≤ 0 :=
        Int.ceil_le.mpr (by exact_mod_cast hq)
      omega
    unfold generate_grid np_arange
    simp [hs0, hceil]

/-- C6 witness: the amended statement evaluated at the Bucharest box with
zero and negative spacing. -/
theorem C6_witness :
    generate_grid BUCHAREST_BBOX 0 = none ∧
    generate_grid BUCHAREST_BBOX (-(5/1000)) = some [] := by
  have h := C6_no_validation BUCHAREST_BBOX (-(5/1000))
  exact ⟨h.1, h.2 (by norm_num) (by norm_num [BUCHAREST_BBOX])⟩

/-! ## IDW lemmas -/

theorem clampedInv_some_pos (d : ℚ) : 0 < clampedInv (some d) := by
  have h : (0:ℚ) < max d EPS :=
    lt_of_lt_of_le (by norm_num [EPS]) (le_max_right d EPS)
  simpa [clampedInv] using one_div_pos.mpr h

theorem clampedInv_nonneg (od : Option ℚ) : 0 ≤ clampedInv od := by
  cases od with
  | none => simp [clampedInv]
  | some d => exact le_of_lt (clampedInv_some_pos d)

theorem sum_clampedInv_nonneg (dists : List (Option ℚ)) :
    0 ≤ (dists.map clampedInv).sum := by
  refine List.sum_nonneg ?_
  intro x hx
  obtain ⟨od, _, rfl⟩ := List.mem_map.mp hx
  exact clampedInv_nonneg od

theorem sum_clampedInv_pos (dists : List (Option ℚ))
    (h1 : ∀ od ∈ dists, od.isSome = true) (h2 : dists ≠ []) :
    0 < (dists.map clampedInv).sum := by
  cases dists with
  | nil => exact absurd rfl h2
  | cons a l =>
      have ha : 0 < clampedInv a := by
        obtain ⟨d, rfl⟩ := Option.isSome_iff_exists.mp (h1 a (by simp))
        exact clampedInv_some_pos d
      have hrest : 0 ≤ (l.map clampedInv).sum := sum_clampedInv_nonneg l
      simp only [List.map_cons, List.sum_cons]
      linarith

theorem map_div_sum (l : List ℚ) (s : ℚ) :
    (l.map (fun w => w / s)).sum = l.sum / s := by
  induction l with
  | nil => simp
  | cons a t ih => simp [ih, add_div]

theorem idw_weights_length (dists : List (Option ℚ)) :
    (idw_weights dists).length = dists.length := by
  simp [idw_weights]

theorem idw_weights_sum (dists : List (Option ℚ))
    (h1 : ∀ od ∈ dists, od.isSome = true) (h2 : dists ≠ []) :
    (idw_weights dists).sum = 1 := by
  unfold idw_weights
  rw [map_div_sum]
  exact div_self (ne_of_gt (sum_clampedInv_pos dists h1 h2))

theorem idw_weights_nonneg (dists : List (Option ℚ)) :
    ∀ w ∈ idw_weights dists, 0 ≤ w := by
  intro w hw
  unfold idw_weights at hw
  obtain ⟨x, hx, rfl⟩ := List.mem_map.mp hw
  obtain ⟨od, _, rfl⟩ := List.mem_map.mp hx
  exact div_nonneg (clampedInv_nonneg od) (sum_clampedInv_nonneg dists)

theorem dotSum_le (vals ws : List ℚ) (hi : ℚ) (hlen : vals.length = ws.length)
    (hw : ∀ w ∈ ws, 0 ≤ w) (hv : ∀ v ∈ vals, v ≤ hi) :
    dotSum vals ws ≤ hi * ws.sum := by
  induction vals generalizing ws with
  | nil =>
      cases ws with
      | nil => simp [dotSum]
      | cons w t => simp at hlen
  | cons v vs ih =>
      cases ws with
      | nil => simp at hlen
      | cons w t =>
          simp only [dotSum, List.sum_cons, mul_add]
          have h1 : v * w ≤ hi * w :=
            mul_le_mul_of_nonneg_right (hv v (by simp)) (hw w (by simp))
          have h2 : dotSum vs t ≤ hi * t.sum :=
            ih t (by simpa using hlen) (fun x hx => hw x (by simp [hx]))
              (fun x hx => hv x (by simp [hx]))
          linarith

theorem dotSum_ge (vals ws : List ℚ) (lo : ℚ) (hlen : vals.length = ws.length)
    (hw : ∀ w ∈ ws, 0 ≤ w) (hv : ∀ v ∈ vals, lo ≤ v) :
    lo * ws.sum ≤ dotSum vals ws := by
  induction vals generalizing ws with
  | nil =>
      cases ws with
      | nil => simp [dotSum]
      | cons w t => simp at hlen
  | cons v vs ih =>
      cases ws with
      | nil => simp at hlen
      | cons w t =>
          simp only [dotSum, List.sum_cons, mul_add]
          have h1 : lo * w ≤ v * w :=
            mul_le_mul_of_nonneg_right (hv v (by simp)) (hw w (by simp))
          have h2 : lo * t.sum ≤ dotSum vs t :=
            ih t (by simpa using hlen) (fun x hx => hw x (by simp [hx]))
              (fun x hx => hv x (by simp [hx]))
          linarith

theorem dotSum_const (vals ws : List ℚ) (c : ℚ) (hlen : vals.length = ws.length)
    (hv : ∀ v ∈ vals, v = c) : dotSum vals ws = c * ws.sum := by
  induction vals generalizing ws with
  | nil =>
      cases ws with
      | nil => simp [dotSum]
      | cons w t => simp at hlen
  | cons v vs ih =>
      cases ws with
      | nil => simp at hlen
      | cons w t =>
          simp only [dotSum, List.sum_cons, mul_add]
          rw [hv v (by simp),
            ih t (by simpa using hlen) (fun x hx => hv x (by simp [hx]))]

theorem dotSum_replicate (vals : List ℚ) (k : ℕ) (w : ℚ)
    (hlen : vals.length = k) :
    dotSum vals (List.replicate k w) = vals.sum * w := by
  induction vals generalizing k with
  | nil => subst hlen; simp [dotSum]
  | cons v vs ih =>
      subst hlen
      simp only [List.length_cons, List.replicate_succ, dotSum, List.sum_cons,
        add_mul]
      rw [ih vs.length rfl]

theorem idw_weights_replicate (k : ℕ) (d : ℚ) (hk : 1 ≤ k) :
    idw_weights (List.replicate k (some d)) =
      List.replicate k ((k : ℚ))⁻¹ := by
  unfold idw_weights
  rw [List.map_replicate, List.map_replicate]
  have hu : 0 < clampedInv (some d) := clampedInv_some_pos d
  have hsum : (List.replicate k (clampedInv (some d))).sum =
      (k : ℚ) * clampedInv (some d) := by
    simp [List.sum_replicate, nsmul_eq_mul]
  rw [hsum]
  have hk0 : ((k : ℚ)) ≠ 0 := by
    exact_mod_cast Nat.pos_iff_ne_zero.mp hk
  congr 1
  rw [mul_comm, div_mul_eq_div_div, div_self (ne_of_gt hu), one_div]

theorem lookupAll_some (vals : List ℚ) (idxs : List ℕ)
    (h : ∀ i ∈ idxs, i < vals.length) :
    ∃ l, lookupAll vals idxs = some l ∧ l.length = idxs.length ∧
      ∀ x ∈ l, x ∈ vals := by
  induction idxs with
  | nil => exact ⟨[], rfl, rfl, by simp⟩
  | cons i rest ih =>
      obtain ⟨l, hl, hlen, hmem⟩ := ih (fun j hj => h j (by simp [hj]))
      have hi : i < vals.length := h i (by simp)
      obtain ⟨v, hv⟩ : ∃ v, vals.get? i = some v := ⟨_, List.get?_eq_get hi⟩
      refine ⟨v :: l, ?_, by simp [hlen], ?_⟩
      · unfold lookupAll
        rw [hv, hl]
      · intro x hx
        rcases List.mem_cons.mp hx with h1 | h2
        · subst h1; exact List.get?_mem hv
        · exact hmem x h2

theorem lookupAll_eq_none (vals : List ℚ) (idxs : List ℕ) (i : ℕ)
    (hi : i ∈ idxs) (hge : vals.length ≤ i) :
    lookupAll vals idxs = none := by
  induction idxs with
  | nil => simp at hi
  | cons j rest ih =>
      rcases List.mem_cons.mp hi with h1 | h2
      · have hnone : vals.get? j = none := by
          rw [← h1]; exact List.get?_eq_none.mpr hge
        unfold lookupAll
        rw [hnone]
      · have hrest := ih h2
        unfold lookupAll
        rw [hrest]
        cases vals.get? j <;> rfl

theorem validSamples_isSome (traffic : List TrafficSample) :
    ∀ s ∈ validSamples traffic, s.congestion_factor.isSome = true := by
  intro s hs
  have h := List.mem_filter.mp hs
  simpa using h.2

theorem filterMap_length_of_isSome (l : List TrafficSample)
    (h : ∀ s ∈ l, s.congestion_factor.isSome = true) :
    (l.filterMap (fun s => s.congestion_factor)).length = l.length := by
  induction l with
  | nil => rfl
  | cons a t ih =>
      obtain ⟨v, hv⟩ := Option.isSome_iff_exists.mp (h a (by simp))
      simp [List.filterMap_cons, hv, ih (fun s hs => h s (by simp [hs]))]

theorem validCongestion_length (traffic : List TrafficSample) :
    (validCongestion traffic).length = (validCoords traffic).length := by
  unfold validCongestion validCoords
  rw [filterMap_length_of_isSome _ (validSamples_isSome traffic),
    List.length_map]

theorem ckd_index_bound (traffic : List TrafficSample) (target : ℚ × ℚ)
    (k : ℕ) (dists : List (Option ℚ)) (idxs : List ℕ)
    (hq : CKDQueryOK (validCoords traffic) target k dists idxs)
    (hn : k ≤ (validCoords traffic).length) :
    ∀ i ∈ idxs, i < (validCongestion traffic).length := by
  obtain ⟨_, hil, hentry, _, _, _, _⟩ := hq
  intro i hi
  obtain ⟨⟨j, hj⟩, rfl⟩ := List.mem_iff_get.mp hi
  have hjk : j < k := by rw [← hil]; exact hj
  have hjn : j < (validCoords traffic).length := lt_of_lt_of_le hjk hn
  have h := (hentry j hjk hjn).1
  rw [getD_eq_get idxs j 0 hj] at h
  rw [validCongestion_length]
  exact h

theorem ckd_dists_isSome (traffic : List TrafficSample) (target : ℚ × ℚ)
    (k : ℕ) (dists : List (Option ℚ)) (idxs : List ℕ)
    (hq : CKDQueryOK (validCoords traffic) target k dists idxs)
    (hn : k ≤ (validCoords traffic).length) :
    ∀ od ∈ dists, od.isSome = true := by
  obtain ⟨hdl, _, hentry, _, _, _, _⟩ := hq
  intro od hod
  obtain ⟨⟨j, hj⟩, rfl⟩ := List.mem_iff_get.mp hod
  have hjk : j < k := by rw [← hdl]; exact hj
  have hjn : j < (validCoords traffic).length := lt_of_lt_of_le hjk hn
  have h := (hentry j hjk hjn).2.1
  rwa [getD_eq_get dists j none hj] at h

/-! ## C4: degradation with fewer than k valid samples -/

/-- C4 counterexample: with one valid sample and k = 3, the tree query pads
the two missing neighbors with an infinite distance and the out-of-range
index 1 (= number of valid points); the claim requires a value computed from
all available valid samples, but `interpolate_traffic_idw` instead fails
(numpy raises `IndexError` on the out-of-range index, modelled as `none`). -/
theorem C4_cex :
    CKDQueryOK (validCoords ([⟨0, 0, some (1/2)⟩] : List TrafficSample))
      (0, 1) 3 [some 1, none, none] [0, 1, 1] ∧
    (validSamples ([⟨0, 0, some (1/2)⟩] : List TrafficSample)).length = 1 ∧
    interpolate_traffic_idw ([⟨0, 0, some (1/2)⟩] : List TrafficSample)
      [([some 1, none, none], [0, 1, 1])] = none := by
  refine ⟨⟨rfl, rfl, ?_, ?_, ?_, ?_, ?_⟩, rfl, ?_⟩
  · intro j hj hj2
    interval_cases j
    · refine ⟨by norm_num [validCoords, validSamples], rfl, by norm_num [dAt], ?_⟩
      norm_num [dAt, sqdist, validCoords, validSamples]
    · simp [validCoords, validSamples] at hj2
    · simp [validCoords, validSamples] at hj2
  · intro j hj hj2
    interval_cases j
    · simp [validCoords, validSamples] at hj2
    · exact ⟨by norm_num [validCoords, validSamples], rfl⟩
    · exact ⟨by norm_num [validCoords, validSamples], rfl⟩
  · intro j hj i hi
    right
    norm_num [validCoords, validSamples]
    omega
  · intro j hj i hi hj2 hi2 hne
    norm_num [validCoords, validSamples] at hj2 hi2
    omega
  · intro m hm hnot j hj hj2
    exfalso
    simp only [validCoords, validSamples] at hm
    norm_num at hm
    subst hm
    exact hnot 0 (by norm_num) rfl
  · norm_num [interpolate_traffic_idw, idw_combine, lookupAll, validCongestion,
      validSamples, List.get?]

/-- C4 (amended): when the whole scan holds fewer valid samples than `k`
(including zero), the padded query index equals the number of valid samples
and is out of range for the congestion array, so the per-target IDW step
fails with an index error rather than degrading to a reduced k or to
"unknown" values. -/
theorem C4_index_error (traffic : List TrafficSample) (target : ℚ × ℚ)
    (k : ℕ) (dists : List (Option ℚ)) (idxs : List ℕ)
    (hq : CKDQueryOK (validCoords traffic) target k dists idxs)
    (hn : (validCoords traffic).length < k) :
    idw_combine (validCongestion traffic) dists idxs = none := by
  obtain ⟨hdl, hil, _, hpad, _, _, _⟩ := hq
  have hp := hpad (validCoords traffic).length hn (le_refl _)
  have hlt : (validCoords traffic).length < idxs.length := by
    rw [hil]; exact hn
  have hmem : (validCoords traffic).length ∈ idxs := by
    have hg : idxs.get ⟨(validCoords traffic).length, hlt⟩ =
        (validCoords traffic).length := by
      rw [← getD_eq_get idxs _ 0 hlt]; exact hp.1
    rw [← hg]
    exact idxs.get_mem _ _
  have hnone := lookupAll_eq_none (validCongestion traffic) idxs
    (validCoords traffic).length hmem (le_of_eq (validCongestion_length traffic))
  unfold idw_combine
  rw [hnone]

/-- C4 witness: the amended statement evaluated at one valid sample and
k = 3, where the query pads with the out-of-range index 1. -/
theorem C4_witness :
    idw_combine (validCongestion ([⟨0, 0, some (1/2)⟩] : List TrafficSample))
      [some 1, none, none] [0, 1, 1] = none := by
  refine C4_index_error [⟨0, 0, some (1/2)⟩] (0, 1) 3 [some 1, none, none]
    [0, 1, 1] ⟨rfl, rfl, ?_, ?_, ?_, ?_, ?_⟩ (by norm_num [validCoords, validSamples])
  · intro j hj hj2
    interval_cases j
    · refine ⟨by norm_num [validCoords, validSamples], rfl, by norm_num [dAt], ?_⟩
      norm_num [dAt, sqdist, validCoords, validSamples]
    · simp [validCoords, validSamples] at hj2
    · simp [validCoords, validSamples] at hj2
  · intro j hj hj2
    interval_cases j
    · simp [validCoords, validSamples] at hj2
    · exact ⟨by norm_num [validCoords, validSamples], rfl⟩
    · exact ⟨by norm_num [validCoords, validSamples], rfl⟩
  · intro j hj i hi
    right
    norm_num [validCoords, validSamples]
    omega
  · intro j hj i hi hj2 hi2 hne
    norm_num [validCoords, validSamples] at hj2 hi2
    omega
  · intro m hm hnot j hj hj2
    exfalso
    simp only [validCoords, validSamples] at hm
    norm_num at hm
    subst hm
    exact hnot 0 (by norm_num) rfl

/-! ## C5: exact coordinate match -/

/-- C5 counterexample: the target (0,0) coincides with the valid sample at
(0,0) whose congestion factor is 0, with two further valid samples at
distances 1 and 2 carrying factor 1.  The code clamps the zero distance to
1e-10, so the coincident sample keeps weight below 1 and the interpolated
value is 3/(2*10^10 + 3), close to but not exactly equal to the matched
sample's value 0. -/
theorem C5_cex :
    CKDQueryOK
      (validCoords ([⟨0, 0, some 0⟩, ⟨0, 1, some 1⟩, ⟨0, 2, some 1⟩] :
        List TrafficSample)) (0, 0) 3 [some 0, some 1, some 2] [0, 1, 2] ∧
    interpolate_traffic_idw
      ([⟨0, 0, some 0⟩, ⟨0, 1, some 1⟩, ⟨0, 2, some 1⟩] : List TrafficSample)
      [([some 0, some 1, some 2], [0, 1, 2])] =
      some [3 / (2 * 10 ^ 10 + 3)] ∧
    (3 / (2 * 10 ^ 10 + 3) : ℚ) ≠ 0 := by
  refine ⟨⟨rfl, rfl, ?_, ?_, ?_, ?_, ?_⟩, ?_, by norm_num⟩
  · intro j hj hj2
    interval_cases j <;>
      refine ⟨by norm_num [validCoords, validSamples], rfl,
        by norm_num [dAt], by norm_num [dAt, sqdist, validCoords, validSamples]⟩
  · intro j hj hj2
    simp [validCoords, validSamples] at hj2
    omega
  · intro j hj i hi
    left
    interval_cases j <;> interval_cases i <;> norm_num [dAt]
  · intro j hj i hi hj2 hi2 hne
    interval_cases j <;> interval_cases i <;> simp_all
  · intro m hm hnot j hj hj2
    exfalso
    simp only [validCoords, validSamples] at hm
    norm_num at hm
    interval_cases m
    · exact hnot 0 (by norm_num) rfl
    · exact hnot 1 (by norm_num) rfl
    · exact hnot 2 (by norm_num) rfl
  · norm_num [interpolate_traffic_idw, idw_combine, lookupAll, validCongestion,
      validSamples, List.get?, idw_weights, clampedInv, EPS, dotSum, max_def,
      List.filterMap_cons]

/-- C5 (amended): for a target coinciding with a valid sample, the zero
distance is clamped to 1e-10 and the result stays well-defined (never NaN or
a division error); the interpolated value is the clamped weighted average,
which equals the matched sample's value only in special cases, e.g. when all
k neighbors carry that same value (in particular when k = 1). -/
theorem C5_coincident (congestion vals : List ℚ) (dists : List (Option ℚ))
    (idxs : List ℕ) (c : ℚ)
    (hl : lookupAll congestion idxs = some vals)
    (hlen : vals.length = dists.length)
    (hsome : ∀ od ∈ dists, od.isSome = true)
    (hne : dists ≠ [])
    (hc : ∀ x ∈ vals, x = c) :
    idw_combine congestion dists idxs = some c := by
  unfold idw_combine
  rw [hl]
  show some (dotSum vals (idw_weights dists)) = some c
  congr 1
  rw [dotSum_const vals (idw_weights dists) c
      (by rw [hlen, idw_weights_length]) hc,
    idw_weights_sum dists hsome hne, mul_one]

/-- C5 witness: three neighbors all carrying the value 7/10, the first
coincident with the target (distance 0): the result is exactly 7/10. -/
theorem C5_witness :
    idw_combine [7/10, 7/10, 7/10] [some 0, some 1, some 2] [0, 1, 2] =
      some (7/10) := by
  refine C5_coincident [7/10, 7/10, 7/10] [7/10, 7/10, 7/10]
    [some 0, some 1, some 2] [0, 1, 2] (7/10) ?_ rfl ?_ ?_ ?_
  · simp [lookupAll, List.get?]
  · simp
  · simp
  · simp

/-! ## C7: FlowSample invariant -/

theorem fetch_result_eq_some (first retry : FetchOutcome) (c f : ℚ) :
    fetch_result first retry = some (c, f) ↔
      ∃ st, effectiveResponse first retry =
          FetchOutcome.response st (some c) (some f) ∧
        ¬(400 ≤ st ∧ st < 600) ∧ 0 < f := by
  unfold fetch_result
  cases effectiveResponse first retry with
  | netError => simp
  | response s cs ffs =>
      by_cases hs : 400 ≤ s ∧ s < 600
      · simp [hs]
      · cases cs with
        | none => simp [hs]
        | some c0 =>
            cases ffs with
            | none => simp [hs]
            | some f0 =>
                by_cases hf : 0 < f0
                · simp only [if_neg hs, if_pos hf, Option.some.injEq,
                    Prod.mk.injEq, FetchOutcome.response.injEq]
                  constructor
                  · rintro ⟨rfl, rfl⟩
                    exact ⟨s, ⟨rfl, rfl, rfl⟩, hs, hf⟩
                  · rintro ⟨st, ⟨rfl, h1, h2⟩, h3, h4⟩
                    exact ⟨h1, h2⟩
                · simp only [if_neg hs, if_neg hf, Option.some.injEq,
                    Prod.mk.injEq, FetchOutcome.response.injEq]
                  constructor
                  · intro h; exact absurd h (by simp)
                  · rintro ⟨st, ⟨rfl, h1, h2⟩, h3, h4⟩
                    exact absurd (by rw [h2]; exact h4) hf

/-- C7: for every request behavior, `congestion_factor` is present in the
produced sample iff both speeds were retrieved from a non-error response and
the free-flow speed is positive; when present it equals
`1 - current/free_flow` clamped to [0, 1], hence always lies in [0, 1], and
absence is the only other possibility. -/
theorem C7_flow_invariant (lat lon : ℚ) (first retry : FetchOutcome) :
    ((fetch_congestion lat lon first retry).congestion_factor.isSome ↔
      ∃ st c f, effectiveResponse first retry =
          FetchOutcome.response st (some c) (some f) ∧
        ¬(400 ≤ st ∧ st < 600) ∧ 0 < f) ∧
    (∀ st c f, effectiveResponse first retry =
        FetchOutcome.response st (some c) (some f) →
      ¬(400 ≤ st ∧ st < 600) → 0 < f →
      (fetch_congestion lat lon first retry).congestion_factor =
        some (max 0 (min 1 (1 - c / f)))) ∧
    (∀ q, (fetch_congestion lat lon first retry).congestion_factor = some q →
      0 ≤ q ∧ q ≤ 1) := by
  refine ⟨?_, ?_, ?_⟩
  · constructor
    · intro h
      unfold fetch_congestion at h
      cases hr : fetch_result first retry with
      | none => rw [hr] at h; simp [invalidSample] at h
      | some p =>
          obtain ⟨c, f⟩ := p
          obtain ⟨st, h1, h2, h3⟩ := (fetch_result_eq_some first retry c f).mp hr
          exact ⟨st, c, f, h1, h2, h3⟩
    · rintro ⟨st, c, f, h1, h2, h3⟩
      have hr : fetch_result first retry = some (c, f) :=
        (fetch_result_eq_some first retry c f).mpr ⟨st, h1, h2, h3⟩
      unfold fetch_congestion
      rw [hr]
      rfl
  · intro st c f h1 h2 h3
    have hr : fetch_result first retry = some (c, f) :=
      (fetch_result_eq_some first retry c f).mpr ⟨st, h1, h2, h3⟩
    unfold fetch_congestion
    rw [hr]
  · intro q hq
    unfold fetch_congestion at hq
    cases hr : fetch_result first retry with
    | none => rw [hr] at hq; simp [invalidSample] at hq
    | some p =>
        obtain ⟨c, f⟩ := p
        rw [hr] at hq
        have h3 : some (max 0 (min 1 (1 - c / f))) = some q := hq
        have h4 := Option.some.inj h3
        subst h4
        exact ⟨le_max_left 0 _, max_le (by norm_num) (min_le_left 1 _)⟩

/-- C7 witness: a 200 response with current speed 30 and free-flow 60 yields
`congestion_factor = 1/2`, inside [0, 1]. -/
theorem C7_witness :
    (fetch_congestion 0 0 (FetchOutcome.response 200 (some 30) (some 60))
        FetchOutcome.netError).congestion_factor = some (1/2) := by
  have h := (C7_flow_invariant 0 0
      (FetchOutcome.response 200 (some 30) (some 60))
      FetchOutcome.netError).2.1 200 30 60 rfl (by norm_num) (by norm_num)
  rw [h]
  norm_num [min_def, max_def]

/-! ## C9: scan totality -/

theorem scan_length (grid : List (ℚ × ℚ))
    (behavior : ℕ → FetchOutcome × FetchOutcome) :
    (scan_traffic_grid grid behavior).length = grid.length := by
  simp [scan_traffic_grid]

theorem fetch_congestion_lat (lat lon : ℚ) (first retry : FetchOutcome) :
    (fetch_congestion lat lon first retry).lat = lat := by
  unfold fetch_congestion
  cases fetch_result first retry with
  | none => rfl
  | some p => obtain ⟨c, f⟩ := p; rfl

theorem fetch_congestion_lon (lat lon : ℚ) (first retry : FetchOutcome) :
    (fetch_congestion lat lon first retry).lon = lon := by
  unfold fetch_congestion
  cases fetch_result first retry with
  | none => rfl
  | some p => obtain ⟨c, f⟩ := p; rfl

theorem fetch_congestion_failed (lat lon : ℚ) (first retry : FetchOutcome)
    (h : RequestFailed first retry) :
    (fetch_congestion lat lon first retry).congestion_factor = none := by
  have hr : fetch_result first retry = none := by
    unfold RequestFailed at h
    unfold fetch_result
    cases he : effectiveResponse first retry with
    | netError => rfl
    | response s cs ffs =>
        rw [he] at h
        have h2 : 400 ≤ s ∧ s < 600 := h
        simp [h2]
  unfold fetch_congestion
  rw [hr]
  rfl

/-- C9: for every grid and every behavior of the external flow lookup, the
scan completes with exactly one record per grid coordinate, in grid order,
each record carrying the queried coordinate; a failed request at a point
yields `congestion_factor = none` for that record and leaves every other
record in place. -/
theorem C9_scan_totality (grid : List (ℚ × ℚ))
    (behavior : ℕ → FetchOutcome × FetchOutcome) :
    (scan_traffic_grid grid behavior).length = grid.length ∧
    ∀ i, i < grid.length →
      (scan_traffic_grid grid behavior).getD i DEFAULT_SAMPLE =
        fetch_congestion (grid.getD i (0, 0)).1 (grid.getD i (0, 0)).2
          (behavior i).1 (behavior i).2 ∧
      ((scan_traffic_grid grid behavior).getD i DEFAULT_SAMPLE).lat =
        (grid.getD i (0, 0)).1 ∧
      ((scan_traffic_grid grid behavior).getD i DEFAULT_SAMPLE).lon =
        (grid.getD i (0, 0)).2 ∧
      (RequestFailed (behavior i).1 (behavior i).2 →
        ((scan_traffic_grid grid behavior).getD i
          DEFAULT_SAMPLE).congestion_factor = none) := by
  refine ⟨scan_length grid behavior, ?_⟩
  intro i hi
  have he : (scan_traffic_grid grid behavior).getD i DEFAULT_SAMPLE =
      fetch_congestion (grid.getD i (0, 0)).1 (grid.getD i (0, 0)).2
        (behavior i).1 (behavior i).2 := by
    unfold scan_traffic_grid
    exact getD_map_range grid.length i _ DEFAULT_SAMPLE hi
  refine ⟨he, ?_, ?_, ?_⟩
  · rw [he]; exact fetch_congestion_lat _ _ _ _
  · rw [he]; exact fetch_congestion_lon _ _ _ _
  · intro hf; rw [he]; exact fetch_congestion_failed _ _ _ _ hf

/-- C9 witness: a one-point grid whose single request fails with a network
error still yields one record, with `congestion_factor = none`. -/
theorem C9_witness :
    (scan_traffic_grid [(1, 2)]
      (fun _ => (FetchOutcome.netError, FetchOutcome.netError))).length = 1 ∧
    ((scan_traffic_grid [(1, 2)]
      (fun _ => (FetchOutcome.netError, FetchOutcome.netError))).getD 0
        DEFAULT_SAMPLE).congestion_factor = none := by
  obtain ⟨hlen, hall⟩ := C9_scan_totality [(1, 2)]
    (fun _ => (FetchOutcome.netError, FetchOutcome.netError))
  obtain ⟨_, _, _, hfail⟩ := hall 0 (by norm_num)
  exact ⟨hlen, hfail trivial⟩

/-! ## C8: IDW is a weighted average -/

/-- C8: for every target whose k nearest valid neighbors all lie at the same
distance, the interpolated value is exactly the arithmetic mean of the
neighbors' congestion factors, as required of a normalized
inverse-distance-weighted average (the equal distances give equal weights
1/k after normalization, whether or not the epsilon clamp engages). -/
theorem C8_idw_mean (traffic : List TrafficSample) (target : ℚ × ℚ) (k : ℕ)
    (d : ℚ) (idxs : List ℕ)
    (hq : CKDQueryOK (validCoords traffic) target k
      (List.replicate k (some d)) idxs)
    (hk : 1 ≤ k) (hn : k ≤ (validCoords traffic).length) :
    ∃ vals, lookupAll (validCongestion traffic) idxs = some vals ∧
      vals.length = k ∧
      idw_combine (validCongestion traffic) (List.replicate k (some d)) idxs =
        some (vals.sum / k) := by
  have hidx := ckd_index_bound traffic target k _ idxs hq hn
  obtain ⟨vals, hl, hlen, _⟩ := lookupAll_some _ _ hidx
  have hil : idxs.length = k := hq.2.1
  refine ⟨vals, hl, by rw [hlen, hil], ?_⟩
  unfold idw_combine
  rw [hl]
  show some (dotSum vals (idw_weights (List.replicate k (some d)))) = _
  rw [idw_weights_replicate k d hk,
    dotSum_replicate vals k _ (by rw [hlen, hil]), div_eq_mul_inv]

/-- C8 witness: three valid samples with factors 1/5, 2/5, 3/5 all at
distance 1 from the target: the interpolated value is their mean 2/5. -/
theorem C8_witness :
    idw_combine
      (validCongestion ([⟨0, 1, some (1/5)⟩, ⟨0, -1, some (2/5)⟩,
        ⟨1, 0, some (3/5)⟩] : List TrafficSample))
      (List.replicate 3 (some 1)) [0, 1, 2] = some (2/5) := by
  have hq : CKDQueryOK
      (validCoords ([⟨0, 1, some (1/5)⟩, ⟨0, -1, some (2/5)⟩,
        ⟨1, 0, some (3/5)⟩] : List TrafficSample)) (0, 0) 3
      (List.replicate 3 (some 1)) [0, 1, 2] := by
    refine ⟨rfl, rfl, ?_, ?_, ?_, ?_, ?_⟩
    · intro j hj hj2
      interval_cases j <;>
        refine ⟨by norm_num [validCoords, validSamples], rfl,
          by norm_num [dAt, List.replicate],
          by norm_num [dAt, sqdist, validCoords, validSamples, List.replicate]⟩
    · intro j hj hj2
      norm_num [validCoords, validSamples] at hj2
      omega
    · intro j hj i hi
      left
      interval_cases j <;> interval_cases i <;> norm_num [dAt, List.replicate]
    · intro j hj i hi hj2 hi2 hne
      interval_cases j <;> interval_cases i <;> simp_all
    · intro m hm hnot j hj hj2
      exfalso
      norm_num [validCoords, validSamples] at hm
      interval_cases m
      · exact hnot 0 (by norm_num) rfl
      · exact hnot 1 (by norm_num) rfl
      · exact hnot 2 (by norm_num) rfl
  obtain ⟨vals, hl, hlen, hcomb⟩ :=
    C8_idw_mean [⟨0, 1, some (1/5)⟩, ⟨0, -1, some (2/5)⟩, ⟨1, 0, some (3/5)⟩]
      (0, 0) 3 1 [0, 1, 2] hq (by norm_num)
      (by norm_num [validCoords, validSamples])
  have he : lookupAll
      (validCongestion ([⟨0, 1, some (1/5)⟩, ⟨0, -1, some (2/5)⟩,
        ⟨1, 0, some (3/5)⟩] : List TrafficSample)) [0, 1, 2] =
      some [1/5, 2/5, 3/5] := by
    norm_num [lookupAll, validCongestion, validSamples, List.get?,
      List.filterMap_cons]
  rw [he] at hl
  obtain rfl := Option.some.inj hl
  rw [hcomb]
  norm_num

/-! ## C10: convex-combination bounds -/

/-- C10: with at least k valid samples whose congestion factors all lie in
[0, 1], each target's interpolated value is defined and is a convex
combination of its k neighbor values: it lies between any lower and upper
bound of those values, in particular in [0, 1]. -/
theorem C10_convex (traffic : List TrafficSample) (target : ℚ × ℚ) (k : ℕ)
    (dists : List (Option ℚ)) (idxs : List ℕ)
    (hq : CKDQueryOK (validCoords traffic) target k dists idxs)
    (hk : 1 ≤ k) (hn : k ≤ (validCoords traffic).length)
    (hb : ∀ x ∈ validCongestion traffic, 0 ≤ x ∧ x ≤ 1) :
    ∃ vals v, lookupAll (validCongestion traffic) idxs = some vals ∧
      idw_combine (validCongestion traffic) dists idxs = some v ∧
      (∀ lo hi, (∀ x ∈ vals, lo ≤ x ∧ x ≤ hi) → lo ≤ v ∧ v ≤ hi) ∧
      0 ≤ v ∧ v ≤ 1 := by
  have hidx := ckd_index_bound traffic target k dists idxs hq hn
  obtain ⟨vals, hl, hlen, hmem⟩ := lookupAll_some _ _ hidx
  have hds := ckd_dists_isSome traffic target k dists idxs hq hn
  have hdl : dists.length = k := hq.1
  have hil : idxs.length = k := hq.2.1
  have hdne : dists ≠ [] := by
    intro h0
    rw [h0] at hdl
    simp at hdl
    omega
  have hwsum : (idw_weights dists).sum = 1 := idw_weights_sum dists hds hdne
  have hwnn := idw_weights_nonneg dists
  have hlen2 : vals.length = (idw_weights dists).length := by
    rw [hlen, hil, idw_weights_length, hdl]
  have hcomb : idw_combine (validCongestion traffic) dists idxs =
      some (dotSum vals (idw_weights dists)) := by
    unfold idw_combine
    rw [hl]
  have hbound : ∀ lo hi, (∀ x ∈ vals, lo ≤ x ∧ x ≤ hi) →
      lo ≤ dotSum vals (idw_weights dists) ∧
      dotSum vals (idw_weights dists) ≤ hi := by
    intro lo hi hx
    constructor
    · have h := dotSum_ge vals (idw_weights dists) lo hlen2 hwnn
        (fun x hxm => (hx x hxm).1)
      rwa [hwsum, mul_one] at h
    · have h := dotSum_le vals (idw_weights dists) hi hlen2 hwnn
        (fun x hxm => (hx x hxm).2)
      rwa [hwsum, mul_one] at h
  exact ⟨vals, dotSum vals (idw_weights dists), hl, hcomb, hbound,
    hbound 0 1 (fun x hxm => hb x (hmem x hxm))⟩

/-- C10 witness: three valid samples with factors 1/5, 2/5, 4/5 all at
distance 1 from the target: the interpolated value 7/15 lies in [0, 1]. -/
theorem C10_witness :
    idw_combine
      (validCongestion ([⟨0, 1, some (1/5)⟩, ⟨0, -1, some (2/5)⟩,
        ⟨1, 0, some (4/5)⟩] : List TrafficSample))
      [some 1, some 1, some 1] [0, 1, 2] = some (7/15) ∧
    (0 : ℚ) ≤ 7/15 ∧ (7/15 : ℚ) ≤ 1 := by
  have hq : CKDQueryOK
      (validCoords ([⟨0, 1, some (1/5)⟩, ⟨0, -1, some (2/5)⟩,
        ⟨1, 0, some (4/5)⟩] : List TrafficSample)) (0, 0) 3
      [some 1, some 1, some 1] [0, 1, 2] := by
    refine ⟨rfl, rfl, ?_, ?_, ?_, ?_, ?_⟩
    · intro j hj hj2
      interval_cases j <;>
        refine ⟨by norm_num [validCoords, validSamples], rfl,
          by norm_num [dAt],
          by norm_num [dAt, sqdist, validCoords, validSamples]⟩
    · intro j hj hj2
      norm_num [validCoords, validSamples] at hj2
      omega
    · intro j hj i hi
      left
      interval_cases j <;> interval_cases i <;> norm_num [dAt]
    · intro j hj i hi hj2 hi2 hne
      interval_cases j <;> interval_cases i <;> simp_all
    · intro m hm hnot j hj hj2
      exfalso
      norm_num [validCoords, validSamples] at hm
      interval_cases m
      · exact hnot 0 (by norm_num) rfl
      · exact hnot 1 (by norm_num) rfl
      · exact hnot 2 (by norm_num) rfl
  obtain ⟨vals, v, hl, hcomb, hbnd, h0, h1⟩ :=
    C10_convex [⟨0, 1, some (1/5)⟩, ⟨0, -1, some (2/5)⟩, ⟨1, 0, some (4/5)⟩]
      (0, 0) 3 [some 1, some 1, some 1] [0, 1, 2] hq (by norm_num)
      (by norm_num [validCoords, validSamples])
      (by
        intro x hx
        norm_num [validCongestion, validSamples, List.filterMap_cons] at hx
        rcases hx with h | h | h <;> subst h <;> norm_num)
  have he : idw_combine
      (validCongestion ([⟨0, 1, some (1/5)⟩, ⟨0, -1, some (2/5)⟩,
        ⟨1, 0, some (4/5)⟩] : List TrafficSample))
      [some 1, some 1, some 1] [0, 1, 2] = some (7/15) := by
    norm_num [idw_combine, lookupAll, validCongestion, validSamples,
      List.get?, List.filterMap_cons, idw_weights, clampedInv, EPS, dotSum,
      max_def]
  have hv : v = 7/15 := by
    rw [he] at hcomb
    exact (Option.some.inj hcomb).symm
  exact ⟨he, hv ▸ h0, hv ▸ h1⟩

end AirCoach
